import Mathlib

/-!
Verification of the market-data synchronization and caching core of the
trading-dashboard repository.

The development shallowly embeds:
  * the locale-independent date parser and the row normalizer of
    `trading_connectors/curveseries/client.py` (`CurveSeriesClient`),
  * the cache repository of `trading_core/database.py`
    (`MarketDataRepository.insert_data_packet`, `bulk_insert`,
    `query_history`, `query_history_as_packets`),
  * the sync orchestrator of `trading_backend/sync_service.py`
    (`DataSyncService.sync_curveseries_data`, `get_data_from_db`),
  * the read endpoint `get_curveseries_data` of `trading_backend/main.py`.

Timestamps are modelled as natural numbers counting microseconds (the
resolution of Python `datetime`); `timedelta(seconds=1)` is `1000000`.
Float values are carried as rationals: the core never performs arithmetic
on values, it only copies them, so the representation is faithful.
Python strings handed to the parser are modelled as lists of characters.
-/

/-- Characters of a Python string, as handed to the date parser. -/
abbrev PyStr := List Char

/-- One untyped cell of a raw row, as dispatched by the `isinstance`
checks in `CurveSeriesClient.fetch_history`: a numeric cell
(`isinstance(cell_val, (int, float))`) or a string cell. -/
inductive Cell where
  | num (v : Rat)
  | str (s : PyStr)
deriving DecidableEq, Repr

/-- A calendar date as produced by Python `datetime(year, month, day)`. -/
structure Date where
  year : Nat
  month : Nat
  day : Nat
deriving DecidableEq, Repr

/-- Digit run to a number (used only on all-digit strings). -/
def digitsToNat (l : List Char) : Nat :=
  l.foldl (fun a c => a * 10 + (c.toNat - '0'.toNat)) 0

/-- Python `int(s)`: strips surrounding spaces, takes an optional sign
followed by a nonempty digit run; anything else raises (here: `none`). -/
def pyInt (s : PyStr) : Option Int :=
  let t := ((s.dropWhile (· = ' ')).reverse.dropWhile (· = ' ')).reverse
  match t with
  | [] => none
  | '-' :: ds =>
      if ds ≠ [] ∧ ds.all Char.isDigit then some (-(digitsToNat ds : Int)) else none
  | '+' :: ds =>
      if ds ≠ [] ∧ ds.all Char.isDigit then some (digitsToNat ds : Int) else none
  | ds =>
      if ds.all Char.isDigit then some (digitsToNat ds : Int) else none

/-- Python `s.split(sep)` for a single-character separator: keeps empty
fields, so the result is always nonempty. -/
def splitOnChar (sep : Char) : PyStr → List PyStr
  | [] => [[]]
  | c :: rest =>
      let r := splitOnChar sep rest
      if c = sep then [] :: r
      else
        match r with
        | [] => [[c]]
        | h :: t => (c :: h) :: t

/-- Gregorian leap-year rule, as used by Python `datetime`. -/
def isLeap (y : Nat) : Bool :=
  (y % 4 == 0 && y % 100 != 0) || y % 400 == 0

/-- Days in a month of the Gregorian calendar. -/
def daysInMonth (y m : Nat) : Nat :=
  if m = 2 then (if isLeap y then 29 else 28)
  else if m = 4 ∨ m = 6 ∨ m = 9 ∨ m = 11 then 30
  else 31

/-- Python `datetime(year, month, day)`: succeeds exactly when the
arguments are in range (`MINYEAR = 1`, `MAXYEAR = 9999`), otherwise
raises (here: `none`). -/
def mkDatetime (y m d : Int) : Option Date :=
  if 1 ≤ y ∧ y ≤ 9999 ∧ 1 ≤ m ∧ m ≤ 12 ∧ 1 ≤ d ∧ d ≤ (daysInMonth y.toNat m.toNat : Int) then
    some ⟨y.toNat, m.toNat, d.toNat⟩
  else none

/-- The fixed month table `CurveSeriesClient.month_map`, built in
`__init__` independently of the host locale; lookup is case-sensitive. -/
def month_map (s : PyStr) : Option Nat :=
  if s = ['J', 'a', 'n'] then some 1
  else if s = ['F', 'e', 'b'] then some 2
  else if s = ['M', 'a', 'r'] then some 3
  else if s = ['A', 'p', 'r'] then some 4
  else if s = ['M', 'a', 'y'] then some 5
  else if s = ['J', 'u', 'n'] then some 6
  else if s = ['J', 'u', 'l'] then some 7
  else if s = ['A', 'u', 'g'] then some 8
  else if s = ['S', 'e', 'p'] then some 9
  else if s = ['O', 'c', 't'] then some 10
  else if s = ['N', 'o', 'v'] then some 11
  else if s = ['D', 'e', 'c'] then some 12
  else none

/-- `CurveSeriesClient._parse_custom_date`: strip an optional trailing
time-of-day (`date_str.split(' ')[0]`), split the remainder on `'-'`
into exactly three fields, read day and year with `int`, look the month
up in the fixed table with a numeric fallback (`int(month_str)`), then
build `datetime(year, month, day)`; any failure yields `none`. -/
def parse_custom_date (dateStr : PyStr) : Option Date :=
  let cleanStr := dateStr.takeWhile (· ≠ ' ')
  match splitOnChar '-' cleanStr with
  | [p0, p1, p2] =>
      match pyInt p0, pyInt p2 with
      | some day, some year =>
          let m : Option Int :=
            match month_map p1 with
            | some mm => some (mm : Int)
            | none => pyInt p1
          match m with
          | some mon => mkDatetime year mon day
          | none => none
      | _, _ => none
  | _ => none

/-- Days from the proleptic Gregorian year 1 up to year `y` (exclusive). -/
def daysBeforeYear (y : Nat) : Nat :=
  ((365 * (y - 1) + (y - 1) / 4) - (y - 1) / 100) + (y - 1) / 400

/-- Days of year `y` strictly before month `m`. -/
def daysBeforeMonth (y m : Nat) : Nat :=
  (List.range (m - 1)).foldl (fun a i => a + daysInMonth y (i + 1)) 0

/-- Proleptic Gregorian ordinal of a date, in days. -/
def dateOrdinal (d : Date) : Nat :=
  daysBeforeYear d.year + daysBeforeMonth d.year d.month + d.day

/-- A midnight `datetime` as a microsecond count, the granularity at
which Python `datetime`/`timedelta` arithmetic happens. -/
def dateToMicros (d : Date) : Nat :=
  dateOrdinal d * 86400000000

/-- `StandardDataPacket` of `trading_core/models.py`: the canonical
record every connector must produce. -/
structure StandardDataPacket where
  source : String
  ticker : String
  timestamp : Nat
  value : Rat
  unit : String
  raw_data : List Cell
  metadata : List (String × String)
deriving DecidableEq, Repr

/-- One pass of the per-row `for col in df.columns` loop of
`CurveSeriesClient.fetch_history`: a numeric cell overwrites the running
value and `continue`s; a string cell containing `'-'` is tried as a date
only while no timestamp has been found yet (`not ts_obj`). Returns the
final `(ts_obj, val)` pair. -/
def scanCells : List Cell → Option Date → Rat → Option Date × Rat
  | [], ts, val => (ts, val)
  | Cell.num v :: rest, ts, _ => scanCells rest ts v
  | Cell.str s :: rest, ts, val =>
      if ts.isNone && s.contains '-' then scanCells rest (parse_custom_date s) val
      else scanCells rest ts val

/-- The per-row tail of `fetch_history`: rows whose scan found no
timestamp are dropped (`if ts_obj is None: continue`); otherwise a
packet is emitted with `source="curveseries"`, the caller's equation as
ticker, `unit="unit"`, the original row as `raw_data` and empty
metadata. The running value starts at `0.0`. -/
def rowToPacket (equation : String) (row : List Cell) : Option StandardDataPacket :=
  let r := scanCells row none 0
  match r.1 with
  | none => none
  | some d =>
      some { source := "curveseries", ticker := equation, timestamp := dateToMicros d,
             value := r.2, unit := "unit", raw_data := row, metadata := [] }

/-- The whole normalization loop of `fetch_history` over the raw rows. -/
def normalizeRows (equation : String) (rows : List (List Cell)) : List StandardDataPacket :=
  rows.filterMap (rowToPacket equation)

/-- A stored row of the `market_data` table (`db_models.MarketData`),
as touched by `MarketDataRepository`; the server-assigned id and
creation time play no role in any claim and are omitted. -/
structure MarketData where
  source : String
  ticker : String
  timestamp : Nat
  value : Rat
  unit : String
  extra_metadata : List (String × String)
  raw_data : List Cell
deriving DecidableEq, Repr

/-- The dedup filter of `insert_data_packet`: a stored row matches a
packet when `source`, `ticker` and `timestamp` coincide. -/
def packetMatchesRow (r : MarketData) (p : StandardDataPacket) : Bool :=
  r.source == p.source && r.ticker == p.ticker && r.timestamp == p.timestamp

/-- A fresh row built from a packet (`MarketData(...)` constructor call
in the else-branch of `insert_data_packet`). -/
def rowOfPacket (p : StandardDataPacket) : MarketData :=
  { source := p.source, ticker := p.ticker, timestamp := p.timestamp,
    value := p.value, unit := p.unit, extra_metadata := p.metadata,
    raw_data := p.raw_data }

/-- `MarketDataRepository.insert_data_packet`: if a row with the same
(`source`, `ticker`, `timestamp`) exists, the first such row
(`query(...).first()`) gets its `value`/`unit`/`extra_metadata`/
`raw_data` overwritten; otherwise a fresh row is appended. -/
def insert_data_packet : List MarketData → StandardDataPacket → List MarketData
  | [], p => [rowOfPacket p]
  | r :: rs, p =>
      if packetMatchesRow r p then
        { r with value := p.value, unit := p.unit, extra_metadata := p.metadata,
                 raw_data := p.raw_data } :: rs
      else r :: insert_data_packet rs p

/-- The state change of `MarketDataRepository.bulk_insert`: one
`insert_data_packet` per packet, in order. -/
def bulkState (db : List MarketData) (ps : List StandardDataPacket) : List MarketData :=
  ps.foldl insert_data_packet db

/-- `MarketDataRepository.bulk_insert`: returns the number of packets
processed (the loop counter), alongside the new state. -/
def bulk_insert (db : List MarketData) (ps : List StandardDataPacket) :
    Nat × List MarketData :=
  (ps.length, bulkState db ps)

/-- The optional source filter of `query_history`: Python `if source:`
is false for `None` and for the empty string. -/
def sourceFilter (src : Option String) (r : MarketData) : Bool :=
  match src with
  | none => true
  | some s0 => if s0 == "" then true else r.source == s0

/-- The WHERE clause of `query_history`: equal ticker, inclusive
timestamp bounds, optional source filter. -/
def matchesQuery (ticker : String) (s e : Nat) (src : Option String) (r : MarketData) : Bool :=
  r.ticker == ticker && decide (s ≤ r.timestamp) && decide (r.timestamp ≤ e)
    && sourceFilter src r

/-- ORDER BY `timestamp` ASC of `query_history`, as a relation on rows. -/
def rowLE (a b : MarketData) : Prop := a.timestamp ≤ b.timestamp

instance : DecidableRel rowLE := fun a b => Nat.decLe a.timestamp b.timestamp

instance : IsTotal MarketData rowLE := ⟨fun a b => Nat.le_total a.timestamp b.timestamp⟩

instance : IsTrans MarketData rowLE := ⟨fun _ _ _ h1 h2 => Nat.le_trans h1 h2⟩

/-- `MarketDataRepository.query_history`: filter then sort ascending by
timestamp (ties are left in store order; SQL fixes no tie order). -/
def query_history (db : List MarketData) (ticker : String) (s e : Nat)
    (src : Option String) : List MarketData :=
  List.insertionSort rowLE (db.filter (matchesQuery ticker s e src))

/-- The row-to-packet conversion of `query_history_as_packets`:
`unit or "unit"` (falsy, i.e. empty, unit defaults), raw and metadata
pass through. -/
def rowToStoredPacket (r : MarketData) : StandardDataPacket :=
  { source := r.source, ticker := r.ticker, timestamp := r.timestamp,
    value := r.value, unit := if r.unit == "" then "unit" else r.unit,
    raw_data := r.raw_data, metadata := r.extra_metadata }

/-- `MarketDataRepository.query_history_as_packets`. -/
def query_history_as_packets (db : List MarketData) (ticker : String) (s e : Nat)
    (src : Option String) : List StandardDataPacket :=
  (query_history db ticker s e src).map rowToStoredPacket

/-- Modelled from the spec: `CSDataAPI.getCSData` is a compiled
extension shipped next to `client.py`, absent from `src/`. Per §4.4 and
the "unchanged upstream source" hypothesis of §8, the upstream is a
fixed time series and a fetch returns exactly its points inside the
inclusive requested range; a failing upstream (unavailable, timeout,
malformed response) is the `error` case, which `fetch_history` catches
and turns into an empty list. -/
abbrev AdapterOutcome : Type := Except Unit (List (Nat × Rat))

/-- `CurveSeriesClient.fetch_history` at the orchestrator boundary:
on upstream failure the surrounding `try/except` returns `[]`;
otherwise the normalized packets of the returned range, each carrying
`source="curveseries"` and the requested equation. -/
def fetchSeries (adapter : AdapterOutcome) (equation : String) (s e : Nat) :
    List StandardDataPacket :=
  match adapter with
  | .error _ => []
  | .ok series =>
      (series.filter (fun q => decide (s ≤ q.1) && decide (q.1 ≤ e))).map
        (fun q => { source := "curveseries", ticker := equation, timestamp := q.1,
                    value := q.2, unit := "unit", raw_data := [], metadata := [] })

/-- `max(d.timestamp for d in existing_data)`, evaluated only on
nonempty lists by the caller. -/
def maxTimestamp (l : List MarketData) : Nat :=
  (l.map (fun r => r.timestamp)).foldl Nat.max 0

/-- Observable outcome of one `sync_curveseries_data` call: the
returned count, the store afterwards, the ranges the adapter was
invoked with, and the packet batches written to the store. -/
structure SyncResult where
  count : Nat
  state : List MarketData
  fetchCalls : List (Nat × Nat)
  writeCalls : List (List StandardDataPacket)
deriving DecidableEq, Repr

/-- The fetch-and-store tail of `sync_curveseries_data` (lines 77-92):
fetch the computed range; with no packets return 0 touching nothing;
otherwise `bulk_insert` all of them (the `update_last_sync` call
touches only the `data_sources` table, not the market-data rows). -/
def syncFetch (adapter : AdapterOutcome) (equation : String) (fs fe : Nat)
    (db : List MarketData) : SyncResult :=
  if (fetchSeries adapter equation fs fe).isEmpty then ⟨0, db, [(fs, fe)], []⟩
  else ⟨(fetchSeries adapter equation fs fe).length,
        bulkState db (fetchSeries adapter equation fs fe), [(fs, fe)],
        [fetchSeries adapter equation fs fe]⟩

/-- `DataSyncService.sync_curveseries_data`: unless `force_refresh`,
read the cache for the range with source `'curveseries'`; a nonempty
cache whose latest timestamp reaches `end_date` short-circuits with 0;
a stale nonempty cache moves the fetch start to
`latest + timedelta(seconds=1)` (one second = 1000000 microseconds);
an empty cache (or `force_refresh`) fetches the full range. -/
def sync_curveseries_data (adapter : AdapterOutcome) (equation : String)
    (startDate endDate : Nat) (forceRefresh : Bool) (db : List MarketData) : SyncResult :=
  if forceRefresh then syncFetch adapter equation startDate endDate db
  else if (query_history db equation startDate endDate (some "curveseries")).isEmpty then
    syncFetch adapter equation startDate endDate db
  else if endDate ≤ maxTimestamp (query_history db equation startDate endDate (some "curveseries")) then
    ⟨0, db, [], []⟩
  else
    syncFetch adapter equation
      (maxTimestamp (query_history db equation startDate endDate (some "curveseries")) + 1000000)
      endDate db

/-- Observable outcome of one `get_data_from_db` call. -/
structure GetDataResult where
  packets : List StandardDataPacket
  state : List MarketData
  fetchCalls : List (Nat × Nat)
  writeCalls : List (List StandardDataPacket)
deriving DecidableEq, Repr

/-- `DataSyncService.get_data_from_db`: query the cache; only when the
result is empty, the source is `'curveseries'` or absent, and the
client exists, run a sync and re-query with source `'curveseries'`
(the surrounding `try/except` can only fire for an absent client,
which the guard already excludes, so the model needs no error case). -/
def get_data_from_db (hasClient : Bool) (adapter : AdapterOutcome) (ticker : String)
    (s e : Nat) (src : Option String) (db : List MarketData) : GetDataResult :=
  let packets := query_history_as_packets db ticker s e src
  if packets.isEmpty && (src == some "curveseries" || src == none) && hasClient then
    let r := sync_curveseries_data adapter ticker s e false db
    ⟨query_history_as_packets r.state ticker s e (some "curveseries"),
      r.state, r.fetchCalls, r.writeCalls⟩
  else ⟨packets, db, [], []⟩

/-- The `/api/curveseries/history` handler `get_curveseries_data` of
`main.py`: an optional forced sync, then `get_data_from_db` with source
`'curveseries'`; an empty result becomes HTTP 404 (`NotFound`),
otherwise the packets are returned. -/
def get_curveseries_data (hasClient : Bool) (adapter : AdapterOutcome) (equation : String)
    (s e : Nat) (forceRefresh : Bool) (db : List MarketData) :
    Except Nat (List StandardDataPacket) :=
  let db1 := if forceRefresh then
    (sync_curveseries_data adapter equation s e true db).state else db
  let r := get_data_from_db hasClient adapter equation s e (some "curveseries") db1
  if r.packets.isEmpty then .error 404 else .ok r.packets

/-- A row with the given (`source`, `ticker`, `timestamp`) identity is
present in the store. -/
def HasIdent (db : List MarketData) (a b : String) (c : Nat) : Prop :=
  ∃ r ∈ db, r.source = a ∧ r.ticker = b ∧ r.timestamp = c

/-- The overwrite of the then-branch of `insert_data_packet`. -/
def updRow (r : MarketData) (p : StandardDataPacket) : MarketData :=
  { r with value := p.value, unit := p.unit, extra_metadata := p.metadata,
           raw_data := p.raw_data }

theorem insert_data_packet_nil (p : StandardDataPacket) :
    insert_data_packet [] p = [rowOfPacket p] := rfl

theorem insert_data_packet_cons (r0 : MarketData) (rs : List MarketData)
    (p : StandardDataPacket) :
    insert_data_packet (r0 :: rs) p =
      if packetMatchesRow r0 p then updRow r0 p :: rs
      else r0 :: insert_data_packet rs p := rfl

theorem bulkState_nil (db : List MarketData) : bulkState db [] = db := rfl

theorem bulkState_cons (db : List MarketData) (q : StandardDataPacket)
    (qs : List StandardDataPacket) :
    bulkState db (q :: qs) = bulkState (insert_data_packet db q) qs := rfl

theorem packetMatchesRow_iff {r : MarketData} {p : StandardDataPacket} :
    packetMatchesRow r p = true ↔
      r.source = p.source ∧ r.ticker = p.ticker ∧ r.timestamp = p.timestamp := by
  simp [packetMatchesRow, Bool.and_eq_true, and_assoc]

theorem hasIdent_insert {db : List MarketData} {p : StandardDataPacket}
    {a b : String} {c : Nat} (h : HasIdent db a b c) :
    HasIdent (insert_data_packet db p) a b c := by
  induction db with
  | nil => rcases h with ⟨r, hr, _⟩; cases hr
  | cons r0 rs ih =>
      rcases h with ⟨r, hr, hid⟩
      rw [insert_data_packet_cons]
      by_cases hm : packetMatchesRow r0 p
      · rw [if_pos hm]
        rcases List.mem_cons.1 hr with rfl | hr
        · exact ⟨updRow r p, List.mem_cons_self _ _, hid⟩
        · exact ⟨r, List.mem_cons_of_mem _ hr, hid⟩
      · rw [if_neg hm]
        rcases List.mem_cons.1 hr with rfl | hr
        · exact ⟨r, List.mem_cons_self _ _, hid⟩
        · rcases ih ⟨r, hr, hid⟩ with ⟨r', hr', hid'⟩
          exact ⟨r', List.mem_cons_of_mem _ hr', hid'⟩

theorem hasIdent_insert_self (db : List MarketData) (p : StandardDataPacket) :
    HasIdent (insert_data_packet db p) p.source p.ticker p.timestamp := by
  induction db with
  | nil => exact ⟨rowOfPacket p, List.mem_singleton_self _, rfl, rfl, rfl⟩
  | cons r0 rs ih =>
      rw [insert_data_packet_cons]
      by_cases hm : packetMatchesRow r0 p
      · rw [if_pos hm]
        obtain ⟨h1, h2, h3⟩ := packetMatchesRow_iff.1 hm
        exact ⟨updRow r0 p, List.mem_cons_self _ _, h1, h2, h3⟩
      · rw [if_neg hm]
        rcases ih with ⟨r', hr', hid'⟩
        exact ⟨r', List.mem_cons_of_mem _ hr', hid'⟩

theorem hasIdent_bulkState {db : List MarketData} {ps : List StandardDataPacket}
    {a b : String} {c : Nat} (h : HasIdent db a b c) :
    HasIdent (bulkState db ps) a b c := by
  induction ps generalizing db with
  | nil => exact h
  | cons p ps ih =>
      rw [bulkState_cons]
      exact ih (hasIdent_insert h)

theorem hasIdent_bulkState_mem (db : List MarketData) {ps : List StandardDataPacket}
    {p : StandardDataPacket} (h : p ∈ ps) :
    HasIdent (bulkState db ps) p.source p.ticker p.timestamp := by
  induction ps generalizing db with
  | nil => cases h
  | cons q qs ih =>
      rw [bulkState_cons]
      rcases List.mem_cons.1 h with rfl | h
      · exact hasIdent_bulkState (hasIdent_insert_self db p)
      · exact ih _ h

theorem mem_query_history {db : List MarketData} {ticker : String} {s e : Nat}
    {src : Option String} {r : MarketData} :
    r ∈ query_history db ticker s e src ↔
      r ∈ db ∧ matchesQuery ticker s e src r = true := by
  rw [query_history, (List.perm_insertionSort rowLE _).mem_iff, List.mem_filter]

theorem query_history_ne_nil {db : List MarketData} {ticker : String} {s e : Nat}
    {src : Option String} {r : MarketData} (hr : r ∈ db)
    (hm : matchesQuery ticker s e src r = true) :
    query_history db ticker s e src ≠ [] := by
  intro hnil
  have : r ∈ query_history db ticker s e src := mem_query_history.2 ⟨hr, hm⟩
  rw [hnil] at this
  cases this

theorem matchesQuery_curveseries {equation : String} {s e : Nat} {r : MarketData}
    (h1 : r.source = "curveseries") (h2 : r.ticker = equation)
    (h3 : s ≤ r.timestamp) (h4 : r.timestamp ≤ e) :
    matchesQuery equation s e (some "curveseries") r = true := by
  simp [matchesQuery, sourceFilter, h1, h2, h3, h4]

theorem foldl_max_le_left (l : List Nat) (a : Nat) : a ≤ l.foldl Nat.max a := by
  induction l generalizing a with
  | nil => exact Nat.le_refl a
  | cons x xs ih => exact Nat.le_trans (Nat.le_max_left a x) (ih (Nat.max a x))

theorem foldl_max_le_mem {l : List Nat} {x : Nat} (h : x ∈ l) (a : Nat) :
    x ≤ l.foldl Nat.max a := by
  induction l generalizing a with
  | nil => cases h
  | cons y ys ih =>
      rw [List.mem_cons] at h
      rcases h with rfl | h
      · exact Nat.le_trans (Nat.le_max_right a x) (foldl_max_le_left ys (Nat.max a x))
      · exact ih h (Nat.max a y)

theorem foldl_max_cases (l : List Nat) (a : Nat) :
    l.foldl Nat.max a = a ∨ ∃ x ∈ l, l.foldl Nat.max a = x := by
  induction l generalizing a with
  | nil => exact Or.inl rfl
  | cons y ys ih =>
      rcases ih (Nat.max a y) with h | ⟨x, hx, hfx⟩
      · rcases Nat.le_total a y with hay | hya
        · refine Or.inr ⟨y, List.mem_cons_self y ys, ?_⟩
          rw [List.foldl_cons, h]
          exact Nat.max_eq_right hay
        · refine Or.inl ?_
          rw [List.foldl_cons, h]
          exact Nat.max_eq_left hya
      · exact Or.inr ⟨x, List.mem_cons_of_mem y hx, hfx⟩

theorem le_maxTimestamp {l : List MarketData} {r : MarketData} (h : r ∈ l) :
    r.timestamp ≤ maxTimestamp l :=
  foldl_max_le_mem (List.mem_map_of_mem (fun r => r.timestamp) h) 0

theorem maxTimestamp_mem {l : List MarketData} (h : l ≠ []) :
    ∃ r ∈ l, maxTimestamp l = r.timestamp := by
  rcases foldl_max_cases (l.map (fun r => r.timestamp)) 0 with h0 | ⟨x, hx, hfx⟩
  · cases l with
    | nil => exact absurd rfl h
    | cons r rs =>
        refine ⟨r, List.mem_cons_self r rs, ?_⟩
        have hub : r.timestamp ≤ maxTimestamp (r :: rs) :=
          le_maxTimestamp (List.mem_cons_self r rs)
        have : maxTimestamp (r :: rs) = 0 := h0
        omega
  · rcases List.mem_map.1 hx with ⟨r, hr, rfl⟩
    exact ⟨r, hr, hfx⟩

/-- The series behind an adapter outcome (empty on failure). -/
def seriesOf : AdapterOutcome → List (Nat × Rat)
  | .error _ => []
  | .ok l => l

/-- The canonical packet a series point is normalized to. -/
def packetOfPoint (equation : String) (q : Nat × Rat) : StandardDataPacket :=
  { source := "curveseries", ticker := equation, timestamp := q.1, value := q.2,
    unit := "unit", raw_data := [], metadata := [] }

theorem fetchSeries_eq (adapter : AdapterOutcome) (equation : String) (s e : Nat) :
    fetchSeries adapter equation s e =
      ((seriesOf adapter).filter (fun q => decide (s ≤ q.1) && decide (q.1 ≤ e))).map
        (packetOfPoint equation) := by
  cases adapter <;> rfl

theorem mem_fetchSeries {adapter : AdapterOutcome} (equation : String) {s e : Nat}
    {q : Nat × Rat} (hq : q ∈ seriesOf adapter) (h1 : s ≤ q.1) (h2 : q.1 ≤ e) :
    packetOfPoint equation q ∈ fetchSeries adapter equation s e := by
  rw [fetchSeries_eq]
  exact List.mem_map_of_mem _ (List.mem_filter.2 ⟨hq, by simp [h1, h2]⟩)

theorem fetchSeries_eq_nil {adapter : AdapterOutcome} {equation : String} {s e : Nat}
    (h : ∀ q ∈ seriesOf adapter, s ≤ q.1 → q.1 ≤ e → False) :
    fetchSeries adapter equation s e = [] := by
  rw [fetchSeries_eq]
  have hf : (seriesOf adapter).filter (fun q => decide (s ≤ q.1) && decide (q.1 ≤ e)) = [] := by
    rw [List.filter_eq_nil_iff]
    intro q hq
    simp only [Bool.and_eq_true, decide_eq_true_eq, not_and]
    exact fun h1 h2 => absurd h2 (fun h2 => h q hq h1 h2)
  rw [hf, List.map_nil]

theorem query_ne_nil_of_ident {st : List MarketData} {equation : String} {s e t : Nat}
    (h : HasIdent st "curveseries" equation t) (h1 : s ≤ t) (h2 : t ≤ e) :
    query_history st equation s e (some "curveseries") ≠ [] := by
  rcases h with ⟨r, hr, hs, ht, hts⟩
  exact query_history_ne_nil hr
    (matchesQuery_curveseries hs ht (by omega) (by omega))

theorem le_max_query_of_ident {st : List MarketData} {equation : String} {s e t : Nat}
    (h : HasIdent st "curveseries" equation t) (h1 : s ≤ t) (h2 : t ≤ e) :
    t ≤ maxTimestamp (query_history st equation s e (some "curveseries")) := by
  rcases h with ⟨r, hr, hs, ht, hts⟩
  have hm : r ∈ query_history st equation s e (some "curveseries") :=
    mem_query_history.2 ⟨hr, matchesQuery_curveseries hs ht (by omega) (by omega)⟩
  have := le_maxTimestamp hm
  omega

theorem query_row_facts {db : List MarketData} {equation : String} {s e : Nat}
    {r : MarketData} (h : r ∈ query_history db equation s e (some "curveseries")) :
    r ∈ db ∧ r.source = "curveseries" ∧ r.ticker = equation ∧
      s ≤ r.timestamp ∧ r.timestamp ≤ e := by
  rcases mem_query_history.1 h with ⟨hr, hm⟩
  have hsf : ("curveseries" == "") = false := rfl
  simp only [matchesQuery, sourceFilter, hsf, Bool.and_eq_true, decide_eq_true_eq,
    if_false, beq_iff_eq, Bool.false_eq_true] at hm
  exact ⟨hr, hm.2, hm.1.1.1, hm.1.1.2, hm.1.2⟩

/-- A store is stable for a request when every upstream point inside
the window is already reflected: its presence forces a nonempty cached
range, and no upstream point lies at or beyond one second past the
cached maximum. A second identical sync against such a store fetches
nothing new. -/
def SyncStable (adapter : AdapterOutcome) (equation : String) (s e : Nat)
    (st : List MarketData) : Prop :=
  ∀ q ∈ seriesOf adapter, q.1 ≤ e →
    (s ≤ q.1 → query_history st equation s e (some "curveseries") ≠ []) ∧
    (query_history st equation s e (some "curveseries") ≠ [] →
      ¬(maxTimestamp (query_history st equation s e (some "curveseries")) + 1000000 ≤ q.1))

theorem sync_state_of_stable (adapter : AdapterOutcome) (equation : String) (s e : Nat)
    (db : List MarketData) (h : SyncStable adapter equation s e db) :
    (sync_curveseries_data adapter equation s e false db).state = db := by
  rw [sync_curveseries_data]
  rw [if_neg (by simp : ¬((false : Bool) = true))]
  by_cases h1 : (query_history db equation s e (some "curveseries")).isEmpty
  · rw [if_pos h1]
    have hE : query_history db equation s e (some "curveseries") = [] :=
      List.isEmpty_iff.1 h1
    have hfe : fetchSeries adapter equation s e = [] :=
      fetchSeries_eq_nil (fun q hq hq1 hq2 => (h q hq hq2).1 hq1 hE)
    rw [syncFetch, if_pos (by rw [hfe]; rfl)]
  · rw [if_neg h1]
    have hE : query_history db equation s e (some "curveseries") ≠ [] :=
      fun hc => h1 (by rw [hc]; rfl)
    by_cases h2 : e ≤ maxTimestamp (query_history db equation s e (some "curveseries"))
    · rw [if_pos h2]
    · rw [if_neg h2]
      have hfe : fetchSeries adapter equation
          (maxTimestamp (query_history db equation s e (some "curveseries")) + 1000000) e = [] :=
        fetchSeries_eq_nil (fun q hq hq1 hq2 => (h q hq hq2).2 hE hq1)
      rw [syncFetch, if_pos (by rw [hfe]; rfl)]

theorem hasIdent_of_point (db : List MarketData) (equation : String) {fs fe : Nat}
    {q : Nat × Rat} (hq : q ∈ seriesOf adapter) (h1 : fs ≤ q.1) (h2 : q.1 ≤ fe) :
    HasIdent (bulkState db (fetchSeries adapter equation fs fe)) "curveseries" equation q.1 := by
  have hp := mem_fetchSeries equation hq h1 h2
  have := hasIdent_bulkState_mem db hp
  simpa [packetOfPoint] using this

theorem sync_stable_after (adapter : AdapterOutcome) (equation : String) (s e : Nat)
    (db : List MarketData) :
    SyncStable adapter equation s e (sync_curveseries_data adapter equation s e false db).state := by
  rw [sync_curveseries_data, if_neg (by simp : ¬((false : Bool) = true))]
  by_cases h1 : (query_history db equation s e (some "curveseries")).isEmpty
  · rw [if_pos h1]
    by_cases hf : (fetchSeries adapter equation s e).isEmpty
    · rw [syncFetch, if_pos hf]
      show SyncStable adapter equation s e db
      have hfe : fetchSeries adapter equation s e = [] := List.isEmpty_iff.1 hf
      intro q hq hqe
      constructor
      · intro hsq
        exfalso
        have hp := mem_fetchSeries equation hq hsq hqe
        rw [hfe] at hp
        cases hp
      · intro hne _
        exact absurd (List.isEmpty_iff.1 h1) hne
    · rw [syncFetch, if_neg hf]
      show SyncStable adapter equation s e (bulkState db (fetchSeries adapter equation s e))
      intro q hq hqe
      constructor
      · intro hsq
        exact query_ne_nil_of_ident (hasIdent_of_point db equation hq hsq hqe) hsq hqe
      · intro hne hge
        obtain ⟨r, hr, hrM⟩ := maxTimestamp_mem hne
        obtain ⟨-, -, -, hsr, -⟩ := query_row_facts hr
        have hsq : s ≤ q.1 := by omega
        have hub := le_max_query_of_ident
          (hasIdent_of_point db equation hq hsq hqe) hsq hqe
        omega
  · rw [if_neg h1]
    have hE0 : query_history db equation s e (some "curveseries") ≠ [] :=
      fun hc => h1 (by rw [hc]; rfl)
    by_cases h2 : e ≤ maxTimestamp (query_history db equation s e (some "curveseries"))
    · rw [if_pos h2]
      show SyncStable adapter equation s e db
      intro q hq hqe
      exact ⟨fun _ => hE0, fun _ hge => by omega⟩
    · rw [if_neg h2]
      by_cases hf : (fetchSeries adapter equation
          (maxTimestamp (query_history db equation s e (some "curveseries")) + 1000000) e).isEmpty
      · rw [syncFetch, if_pos hf]
        show SyncStable adapter equation s e db
        have hfe := List.isEmpty_iff.1 hf
        intro q hq hqe
        refine ⟨fun _ => hE0, fun _ hge => ?_⟩
        have hp := mem_fetchSeries equation hq hge hqe
        rw [hfe] at hp
        cases hp
      · rw [syncFetch, if_neg hf]
        show SyncStable adapter equation s e (bulkState db (fetchSeries adapter equation
          (maxTimestamp (query_history db equation s e (some "curveseries")) + 1000000) e))
        have hpres : ∀ r ∈ query_history db equation s e (some "curveseries"),
            HasIdent (bulkState db (fetchSeries adapter equation
              (maxTimestamp (query_history db equation s e (some "curveseries")) + 1000000) e))
              "curveseries" equation r.timestamp := by
          intro r hr
          obtain ⟨hrdb, hsrc, htk, -, -⟩ := query_row_facts hr
          exact hasIdent_bulkState ⟨r, hrdb, hsrc, htk, rfl⟩
        obtain ⟨r0, hr0⟩ := List.exists_mem_of_ne_nil _ hE0
        have hE'ne : query_history (bulkState db (fetchSeries adapter equation
            (maxTimestamp (query_history db equation s e (some "curveseries")) + 1000000) e))
            equation s e (some "curveseries") ≠ [] := by
          obtain ⟨-, -, -, hsr, hre⟩ := query_row_facts hr0
          exact query_ne_nil_of_ident (hpres r0 hr0) hsr hre
        intro q hq hqe
        refine ⟨fun _ => hE'ne, fun hne hge => ?_⟩
        obtain ⟨rL, hrL, hLts⟩ := maxTimestamp_mem hE0
        obtain ⟨-, -, -, hsL, hLe⟩ := query_row_facts hrL
        have hLM := le_max_query_of_ident (hpres rL hrL) hsL hLe
        have hq1 : maxTimestamp (query_history db equation s e (some "curveseries")) + 1000000 ≤ q.1 := by
          omega
        have hid := hasIdent_of_point db equation hq hq1 hqe
        have hsq : s ≤ q.1 := by omega
        have hub := le_max_query_of_ident hid hsq hqe
        omega

theorem sync_state_of_fetch_nil {adapter : AdapterOutcome} {equation : String}
    {s e : Nat} (force : Bool) (db : List MarketData)
    (h : ∀ fs fe, fetchSeries adapter equation fs fe = []) :
    (sync_curveseries_data adapter equation s e force db).state = db := by
  rw [sync_curveseries_data]
  cases force with
  | true => rw [if_pos rfl, syncFetch, if_pos (by rw [h]; rfl)]
  | false =>
      rw [if_neg (by simp)]
      by_cases h1 : (query_history db equation s e (some "curveseries")).isEmpty
      · rw [if_pos h1, syncFetch, if_pos (by rw [h]; rfl)]
      · rw [if_neg h1]
        by_cases h2 : e ≤ maxTimestamp (query_history db equation s e (some "curveseries"))
        · rw [if_pos h2]
        · rw [if_neg h2, syncFetch, if_pos (by rw [h]; rfl)]

theorem sync_error_state (u : Unit) (equation : String) (s e : Nat) (force : Bool)
    (db : List MarketData) :
    (sync_curveseries_data (Except.error u) equation s e force db).state = db :=
  sync_state_of_fetch_nil force db (fun _ _ => rfl)

/-- C2: idempotence of sync-then-read. For every upstream outcome (a
fixed series, or a failing upstream), ticker and range, running
`sync_curveseries_data` a second time on the state the first run left
behind changes nothing: the stored rows are identical (so the row count
is unchanged) and the read-back `query_history_as_packets` over the
range returns the identical ordered packet list. -/
theorem C2_getOrSync_idempotent (adapter : AdapterOutcome) (equation : String)
    (s e : Nat) (db : List MarketData) :
    (sync_curveseries_data adapter equation s e false
        (sync_curveseries_data adapter equation s e false db).state).state
      = (sync_curveseries_data adapter equation s e false db).state
    ∧ query_history_as_packets
        (sync_curveseries_data adapter equation s e false
          (sync_curveseries_data adapter equation s e false db).state).state
        equation s e (some "curveseries")
      = query_history_as_packets
          (sync_curveseries_data adapter equation s e false db).state
          equation s e (some "curveseries")
    ∧ (sync_curveseries_data adapter equation s e false
        (sync_curveseries_data adapter equation s e false db).state).state.length
      = (sync_curveseries_data adapter equation s e false db).state.length := by
  have hst : (sync_curveseries_data adapter equation s e false
      (sync_curveseries_data adapter equation s e false db).state).state
      = (sync_curveseries_data adapter equation s e false db).state :=
    sync_state_of_stable adapter equation s e _ (sync_stable_after adapter equation s e db)
  exact ⟨hst, by rw [hst], by rw [hst]⟩

/-- C3: cache-sufficiency short-circuit. With `force_refresh` false, a
nonempty cached range whose maximum timestamp reaches `end_date` makes
`sync_curveseries_data` return 0 immediately: the adapter is never
invoked, nothing is written, and the store is unchanged — the cached
data alone answers the request. -/
theorem C3_cache_sufficiency_short_circuit (adapter : AdapterOutcome)
    (equation : String) (s e : Nat) (db : List MarketData)
    (h1 : query_history db equation s e (some "curveseries") ≠ [])
    (h2 : e ≤ maxTimestamp (query_history db equation s e (some "curveseries"))) :
    sync_curveseries_data adapter equation s e false db = ⟨0, db, [], []⟩ := by
  rw [sync_curveseries_data, if_neg (by simp : ¬((false : Bool) = true)),
    if_neg (fun hc => h1 (List.isEmpty_iff.1 hc)), if_pos h2]

/-- C3 witness: a store holding one cached curveseries row at the
requested end timestamp short-circuits the sync. -/
theorem C3_witness :
    (query_history [(⟨"curveseries", "t", 5, 1, "unit", [], []⟩ : MarketData)]
        "t" 0 5 (some "curveseries") ≠ []
      ∧ 5 ≤ maxTimestamp (query_history
          [(⟨"curveseries", "t", 5, 1, "unit", [], []⟩ : MarketData)]
          "t" 0 5 (some "curveseries")))
    ∧ sync_curveseries_data (Except.ok [(9, 2)]) "t" 0 5 false
        [(⟨"curveseries", "t", 5, 1, "unit", [], []⟩ : MarketData)]
      = ⟨0, [(⟨"curveseries", "t", 5, 1, "unit", [], []⟩ : MarketData)], [], []⟩ :=
  ⟨⟨by decide, by decide⟩,
    C3_cache_sufficiency_short_circuit (Except.ok [(9, 2)]) "t" 0 5 _
      (by decide) (by decide)⟩

/-- C4 counterexample: the claim says the incremental tail starts at
`max(existing) + ε` with ε the smallest representable time increment
(one microsecond for Python datetimes); the code adds
`timedelta(seconds=1)`, so with a cached row at timestamp 0 and a
request ending at 5000000 μs the adapter is invoked for start
1000000, not for `max + 1`. -/
theorem C4_epsilon_counterexample :
    (sync_curveseries_data (Except.ok []) "t" 0 5000000 false
        [(⟨"curveseries", "t", 0, 1, "unit", [], []⟩ : MarketData)]).fetchCalls
      ≠ [(maxTimestamp (query_history
            [(⟨"curveseries", "t", 0, 1, "unit", [], []⟩ : MarketData)]
            "t" 0 5000000 (some "curveseries")) + 1, 5000000)] := by
  decide

/-- C4 amended: with `force_refresh` false and a nonempty but stale
cached range (max timestamp < `end_date`), the adapter is invoked for
exactly the tail `[max(existing) + 1 second, end]` (ε is one second,
1000000 μs — not the smallest representable increment), so every
invoked fetch range starts strictly after `max(existing)` and the
cached prefix `[start, max(existing)]` is never re-fetched. -/
theorem C4_minimal_incremental_fetch (adapter : AdapterOutcome) (equation : String)
    (s e : Nat) (db : List MarketData)
    (h1 : query_history db equation s e (some "curveseries") ≠ [])
    (h2 : maxTimestamp (query_history db equation s e (some "curveseries")) < e) :
    (sync_curveseries_data adapter equation s e false db).fetchCalls
      = [(maxTimestamp (query_history db equation s e (some "curveseries")) + 1000000, e)]
    ∧ ∀ c ∈ (sync_curveseries_data adapter equation s e false db).fetchCalls,
        maxTimestamp (query_history db equation s e (some "curveseries")) < c.1 := by
  have hcalls : (sync_curveseries_data adapter equation s e false db).fetchCalls
      = [(maxTimestamp (query_history db equation s e (some "curveseries")) + 1000000, e)] := by
    rw [sync_curveseries_data, if_neg (by simp : ¬((false : Bool) = true)),
      if_neg (fun hc => h1 (List.isEmpty_iff.1 hc)), if_neg (by omega), syncFetch]
    by_cases hf : (fetchSeries adapter equation
        (maxTimestamp (query_history db equation s e (some "curveseries")) + 1000000) e).isEmpty
    · rw [if_pos hf]
    · rw [if_neg hf]
  refine ⟨hcalls, ?_⟩
  intro c hc
  rw [hcalls, List.mem_singleton] at hc
  subst hc
  omega

/-- C4 witness: cached row at timestamp 0, request ending at 5000000:
the single adapter invocation starts at 1000000. -/
theorem C4_witness :
    (query_history [(⟨"curveseries", "t", 0, 1, "unit", [], []⟩ : MarketData)]
        "t" 0 5000000 (some "curveseries") ≠ []
      ∧ maxTimestamp (query_history
          [(⟨"curveseries", "t", 0, 1, "unit", [], []⟩ : MarketData)]
          "t" 0 5000000 (some "curveseries")) < 5000000)
    ∧ (sync_curveseries_data (Except.ok []) "t" 0 5000000 false
        [(⟨"curveseries", "t", 0, 1, "unit", [], []⟩ : MarketData)]).fetchCalls
      = [(maxTimestamp (query_history
            [(⟨"curveseries", "t", 0, 1, "unit", [], []⟩ : MarketData)]
            "t" 0 5000000 (some "curveseries")) + 1000000, 5000000)] :=
  ⟨⟨by decide, by decide⟩,
    (C4_minimal_incremental_fetch (Except.ok []) "t" 0 5000000
      [(⟨"curveseries", "t", 0, 1, "unit", [], []⟩ : MarketData)]
      (by decide) (by decide)).1⟩

/-- C10: the read surface syncs only on an empty cache. Whenever the
cache query for the requested range returns at least one packet —
however stale — `get_data_from_db` returns exactly those cached
packets, invokes no adapter fetch and performs no store write. -/
theorem C10_cached_read_no_fetch (hasClient : Bool) (adapter : AdapterOutcome)
    (ticker : String) (s e : Nat) (src : Option String) (db : List MarketData)
    (h : query_history_as_packets db ticker s e src ≠ []) :
    get_data_from_db hasClient adapter ticker s e src db
      = ⟨query_history_as_packets db ticker s e src, db, [], []⟩ := by
  have hq : (query_history_as_packets db ticker s e src).isEmpty = false := by
    cases hq2 : (query_history_as_packets db ticker s e src).isEmpty
    · rfl
    · exact absurd (List.isEmpty_iff.1 hq2) h
  rw [get_data_from_db, hq]
  rfl

/-- C10 witness: a store with one cached stale row in range returns it
untouched with empty fetch and write logs. -/
theorem C10_witness :
    (query_history_as_packets [(⟨"curveseries", "t", 1, 3, "unit", [], []⟩ : MarketData)]
        "t" 0 99 (some "curveseries") ≠ [])
    ∧ get_data_from_db true (Except.ok [(50, 4)]) "t" 0 99 (some "curveseries")
        [(⟨"curveseries", "t", 1, 3, "unit", [], []⟩ : MarketData)]
      = ⟨query_history_as_packets [(⟨"curveseries", "t", 1, 3, "unit", [], []⟩ : MarketData)]
            "t" 0 99 (some "curveseries"),
          [(⟨"curveseries", "t", 1, 3, "unit", [], []⟩ : MarketData)], [], []⟩ :=
  ⟨by decide,
    C10_cached_read_no_fetch true (Except.ok [(50, 4)]) "t" 0 99 (some "curveseries")
      [(⟨"curveseries", "t", 1, 3, "unit", [], []⟩ : MarketData)] (by decide)⟩

/-- C9: fetch-failure fallback of the read endpoint. When the adapter
fails (modelled as the error outcome, which `fetch_history` turns into
an empty fetch), a request whose cache holds data for the range gets
exactly that partial cached data back with an `ok` result, and a
request whose cache holds nothing gets the 404 `NotFound` error value
rather than a crash. -/
theorem C9_fetch_failure_fallback (u : Unit) (equation : String) (s e : Nat)
    (forceRefresh : Bool) (db : List MarketData) :
    (query_history_as_packets db equation s e (some "curveseries") ≠ [] →
      get_curveseries_data true (Except.error u) equation s e forceRefresh db
        = Except.ok (query_history_as_packets db equation s e (some "curveseries")))
    ∧ (query_history_as_packets db equation s e (some "curveseries") = [] →
      get_curveseries_data true (Except.error u) equation s e forceRefresh db
        = Except.error 404) := by
  have hdb1 : (if forceRefresh then
      (sync_curveseries_data (Except.error u) equation s e true db).state else db) = db := by
    cases forceRefresh
    · rfl
    · rw [if_pos rfl, sync_error_state]
  constructor
  · intro h
    rw [get_curveseries_data, hdb1,
      C10_cached_read_no_fetch true (Except.error u) equation s e (some "curveseries") db h]
    have hq : (query_history_as_packets db equation s e (some "curveseries")).isEmpty = false := by
      cases hq2 : (query_history_as_packets db equation s e (some "curveseries")).isEmpty
      · rfl
      · exact absurd (List.isEmpty_iff.1 hq2) h
    simp only [hq]
    rfl
  · intro h
    rw [get_curveseries_data, hdb1]
    have hempty : (query_history_as_packets db equation s e (some "curveseries")).isEmpty = true := by
      rw [h]; rfl
    have hr : get_data_from_db true (Except.error u) equation s e (some "curveseries") db
        = ⟨query_history_as_packets
            (sync_curveseries_data (Except.error u) equation s e false db).state
            equation s e (some "curveseries"),
          (sync_curveseries_data (Except.error u) equation s e false db).state,
          (sync_curveseries_data (Except.error u) equation s e false db).fetchCalls,
          (sync_curveseries_data (Except.error u) equation s e false db).writeCalls⟩ := by
      rw [get_data_from_db, hempty]
      rfl
    rw [hr]
    simp only [sync_error_state, h]
    rfl

/-- C9 witness: with a failing adapter, a warm cache is returned as-is
and a cold cache yields 404. -/
theorem C9_witness :
    get_curveseries_data true (Except.error ()) "t" 0 10 false
        [(⟨"curveseries", "t", 2, 7, "unit", [], []⟩ : MarketData)]
      = Except.ok (query_history_as_packets
          [(⟨"curveseries", "t", 2, 7, "unit", [], []⟩ : MarketData)]
          "t" 0 10 (some "curveseries"))
    ∧ get_curveseries_data true (Except.error ()) "t" 0 10 false []
      = Except.error 404 :=
  ⟨(C9_fetch_failure_fallback () "t" 0 10 false
      [(⟨"curveseries", "t", 2, 7, "unit", [], []⟩ : MarketData)]).1 (by decide),
    (C9_fetch_failure_fallback () "t" 0 10 false []).2 (by decide)⟩

/-- The identity-triple filter, as a Boolean predicate on rows. -/
def identKey (a b : String) (c : Nat) (r : MarketData) : Bool :=
  r.source == a && r.ticker == b && r.timestamp == c

/-- The mutable payload of a row: everything an upsert overwrites. -/
def rowPayload (r : MarketData) : Rat × String × List (String × String) × List Cell :=
  (r.value, r.unit, r.extra_metadata, r.raw_data)

theorem identKey_updRow (a b : String) (c : Nat) (r : MarketData) (p : StandardDataPacket) :
    identKey a b c (updRow r p) = identKey a b c r := rfl

theorem identKey_self_eq_matches (p : StandardDataPacket) (r : MarketData) :
    identKey p.source p.ticker p.timestamp r = packetMatchesRow r p := rfl

theorem identKey_packet_iff {p : StandardDataPacket} {a b : String} {c : Nat} :
    identKey a b c (rowOfPacket p) = true ↔
      p.source = a ∧ p.ticker = b ∧ p.timestamp = c := by
  simp [identKey, rowOfPacket, Bool.and_eq_true, and_assoc]

theorem countIdent_insert_of_ne (db : List MarketData) {p : StandardDataPacket}
    {a b : String} {c : Nat}
    (h : ¬(p.source = a ∧ p.ticker = b ∧ p.timestamp = c)) :
    ((insert_data_packet db p).filter (identKey a b c)).length
      = (db.filter (identKey a b c)).length := by
  induction db with
  | nil =>
      rw [insert_data_packet_nil]
      have hk : identKey a b c (rowOfPacket p) = false := by
        cases hk2 : identKey a b c (rowOfPacket p)
        · rfl
        · exact absurd (identKey_packet_iff.1 hk2) h
      rw [List.filter_cons, if_neg (by rw [hk]; exact Bool.false_ne_true)]
  | cons r0 rs ih =>
      rw [insert_data_packet_cons]
      by_cases hm : packetMatchesRow r0 p
      · rw [if_pos hm, List.filter_cons, List.filter_cons, identKey_updRow]
        cases hk : identKey a b c r0 <;> simp [hk]
      · rw [if_neg hm, List.filter_cons, List.filter_cons]
        cases hk : identKey a b c r0 <;> simp [hk, ih]

theorem countIdent_insert_le_one {db : List MarketData} {p : StandardDataPacket}
    {a b : String} {c : Nat}
    (h : (db.filter (identKey a b c)).length ≤ 1) :
    ((insert_data_packet db p).filter (identKey a b c)).length ≤ 1 := by
  induction db with
  | nil =>
      rw [insert_data_packet_nil]
      cases hk : identKey a b c (rowOfPacket p) <;> simp [List.filter_cons, hk]
  | cons r0 rs ih =>
      rw [insert_data_packet_cons]
      rw [List.filter_cons] at h
      by_cases hm : packetMatchesRow r0 p
      · rw [if_pos hm, List.filter_cons, identKey_updRow]
        cases hk : identKey a b c r0
        · simp only [hk] at h ⊢
          simpa using h
        · simp only [hk] at h ⊢
          simpa using h
      · rw [if_neg hm, List.filter_cons]
        cases hk : identKey a b c r0
        · simp only [hk] at h ⊢
          simp only [Bool.false_eq_true, if_false] at h ⊢
          exact ih h
        · simp only [hk] at h ⊢
          simp only [if_true] at h ⊢
          -- the head already carries the key, so the packet key differs
          have hkey : ¬(p.source = a ∧ p.ticker = b ∧ p.timestamp = c) := by
            intro ⟨ha, hb, hc⟩
            apply hm
            have hk' : identKey a b c r0 = true := hk
            simp only [identKey, Bool.and_eq_true, beq_iff_eq] at hk'
            exact packetMatchesRow_iff.2 ⟨by rw [hk'.1.1, ha], by rw [hk'.1.2, hb],
              by rw [hk'.2, hc]⟩
          have hEq := countIdent_insert_of_ne rs hkey
          simp only [List.length_cons] at h ⊢
          omega

theorem countIdent_bulkState_le_one {db : List MarketData}
    {ps : List StandardDataPacket} {a b : String} {c : Nat}
    (h : (db.filter (identKey a b c)).length ≤ 1) :
    ((bulkState db ps).filter (identKey a b c)).length ≤ 1 := by
  induction ps generalizing db with
  | nil => exact h
  | cons p qs ih =>
      rw [bulkState_cons]
      exact ih (countIdent_insert_le_one h)

theorem insert_length_of_hasIdent {db : List MarketData} {p : StandardDataPacket}
    (h : HasIdent db p.source p.ticker p.timestamp) :
    (insert_data_packet db p).length = db.length := by
  induction db with
  | nil => rcases h with ⟨r, hr, -⟩; cases hr
  | cons r0 rs ih =>
      rw [insert_data_packet_cons]
      by_cases hm : packetMatchesRow r0 p
      · rw [if_pos hm]
        rfl
      · rw [if_neg hm, List.length_cons, List.length_cons]
        rcases h with ⟨r, hr, hid⟩
        rcases List.mem_cons.1 hr with rfl | hr
        · exact absurd (packetMatchesRow_iff.2 hid) hm
        · rw [ih ⟨r, hr, hid⟩]

theorem insert_filter_self {db : List MarketData} {p : StandardDataPacket}
    (h : (db.filter (identKey p.source p.ticker p.timestamp)).length ≤ 1) :
    ((insert_data_packet db p).filter (identKey p.source p.ticker p.timestamp)).map rowPayload
      = [(p.value, p.unit, p.metadata, p.raw_data)] := by
  induction db with
  | nil =>
      rw [insert_data_packet_nil]
      have hk : identKey p.source p.ticker p.timestamp (rowOfPacket p) = true :=
        identKey_packet_iff.2 ⟨rfl, rfl, rfl⟩
      rw [List.filter_cons, if_pos hk]
      rfl
  | cons r0 rs ih =>
      rw [insert_data_packet_cons]
      by_cases hm : packetMatchesRow r0 p
      · have hcond : identKey p.source p.ticker p.timestamp (updRow r0 p) = true := by
          rw [identKey_updRow, identKey_self_eq_matches]
          exact hm
        have hcond0 : identKey p.source p.ticker p.timestamp r0 = true := by
          rw [identKey_self_eq_matches]
          exact hm
        rw [if_pos hm, List.filter_cons, if_pos hcond]
        rw [List.filter_cons, if_pos hcond0] at h
        have hzero : (rs.filter (identKey p.source p.ticker p.timestamp)).length = 0 := by
          simp only [List.length_cons] at h
          omega
        rw [List.length_eq_zero] at hzero
        rw [hzero]
        rfl
      · have hcond : identKey p.source p.ticker p.timestamp r0 = false := by
          rw [identKey_self_eq_matches]
          exact Bool.eq_false_iff.2 hm
        rw [if_neg hm, List.filter_cons, if_neg (by rw [hcond]; exact Bool.false_ne_true)]
        apply ih
        rw [List.filter_cons, if_neg (by rw [hcond]; exact Bool.false_ne_true)] at h
        exact h

/-- C1: dedup invariant of the cache repository. Every store reachable
from empty by upserts holds at most one row per (`source`, `ticker`,
`timestamp`); upserting a packet whose identity already exists (here:
after upserting the same-identity `p1`) overwrites
`value`/`unit`/`metadata`/`raw_data` and creates no new row, so two
same-identity upserts leave exactly one row for that identity, holding
the second packet's payload. -/
theorem C1_upsert_dedup (ps : List StandardDataPacket) (p1 p2 : StandardDataPacket)
    (a b : String) (c : Nat)
    (hid : p1.source = p2.source ∧ p1.ticker = p2.ticker ∧ p1.timestamp = p2.timestamp) :
    (((bulkState [] ps).filter (identKey a b c)).length ≤ 1)
    ∧ ((insert_data_packet (insert_data_packet (bulkState [] ps) p1) p2).filter
          (identKey p2.source p2.ticker p2.timestamp)).map rowPayload
        = [(p2.value, p2.unit, p2.metadata, p2.raw_data)]
    ∧ (insert_data_packet (insert_data_packet (bulkState [] ps) p1) p2).length
        = (insert_data_packet (bulkState [] ps) p1).length := by
  obtain ⟨h1, h2, h3⟩ := hid
  refine ⟨countIdent_bulkState_le_one (by simp), ?_, ?_⟩
  · apply insert_filter_self
    have : ((insert_data_packet (bulkState [] ps) p1).filter
        (identKey p1.source p1.ticker p1.timestamp)).length ≤ 1 :=
      countIdent_insert_le_one (countIdent_bulkState_le_one (by simp))
    rw [h1, h2, h3] at this
    exact this
  · apply insert_length_of_hasIdent
    have := hasIdent_insert_self (bulkState [] ps) p1
    rw [h1, h2, h3] at this
    exact this

/-- C1 witness: two upserts sharing identity ("curveseries", "t", 3)
with values 10 then 20 leave exactly one row for that identity holding
value 20, and the second upsert does not grow the store. -/
theorem C1_witness :
    ((⟨"curveseries", "t", 3, 10, "u", [], []⟩ : StandardDataPacket).source
        = (⟨"curveseries", "t", 3, 20, "v", [], []⟩ : StandardDataPacket).source
      ∧ (⟨"curveseries", "t", 3, 10, "u", [], []⟩ : StandardDataPacket).ticker
        = (⟨"curveseries", "t", 3, 20, "v", [], []⟩ : StandardDataPacket).ticker
      ∧ (⟨"curveseries", "t", 3, 10, "u", [], []⟩ : StandardDataPacket).timestamp
        = (⟨"curveseries", "t", 3, 20, "v", [], []⟩ : StandardDataPacket).timestamp)
    ∧ ((((bulkState [] [⟨"curveseries", "x", 9, 1, "u", [], []⟩]).filter
          (identKey "curveseries" "x" 9)).length ≤ 1)
      ∧ ((insert_data_packet (insert_data_packet
            (bulkState [] [⟨"curveseries", "x", 9, 1, "u", [], []⟩])
            ⟨"curveseries", "t", 3, 10, "u", [], []⟩)
            ⟨"curveseries", "t", 3, 20, "v", [], []⟩).filter
            (identKey "curveseries" "t" 3)).map rowPayload
          = [(20, "v", [], [])]
      ∧ (insert_data_packet (insert_data_packet
            (bulkState [] [⟨"curveseries", "x", 9, 1, "u", [], []⟩])
            ⟨"curveseries", "t", 3, 10, "u", [], []⟩)
            ⟨"curveseries", "t", 3, 20, "v", [], []⟩).length
          = (insert_data_packet (bulkState [] [⟨"curveseries", "x", 9, 1, "u", [], []⟩])
              ⟨"curveseries", "t", 3, 10, "u", [], []⟩).length) :=
  ⟨⟨rfl, rfl, rfl⟩,
    C1_upsert_dedup [⟨"curveseries", "x", 9, 1, "u", [], []⟩]
      ⟨"curveseries", "t", 3, 10, "u", [], []⟩
      ⟨"curveseries", "t", 3, 20, "v", [], []⟩
      "curveseries" "x" 9 ⟨rfl, rfl, rfl⟩⟩

/-- The dedup invariant as a predicate: no two stored rows share the
(`source`, `ticker`, `timestamp`) identity. Holds for every store
reachable by upserts. -/
def distinctIdent (db : List MarketData) : Prop :=
  List.Pairwise
    (fun r1 r2 => ¬(r1.source = r2.source ∧ r1.ticker = r2.ticker ∧ r1.timestamp = r2.timestamp))
    db

instance (db : List MarketData) : Decidable (distinctIdent db) := by
  unfold distinctIdent
  infer_instance

theorem matchesQuery_some_facts {t : String} {s e : Nat} {s0 : String} {r : MarketData}
    (hs0 : s0 ≠ "") (h : matchesQuery t s e (some s0) r = true) :
    r.ticker = t ∧ s ≤ r.timestamp ∧ r.timestamp ≤ e ∧ r.source = s0 := by
  have hbe : (s0 == "") = false := by
    cases hb : (s0 == "")
    · rfl
    · exact absurd (by simpa using hb) hs0
  simp only [matchesQuery, sourceFilter, hbe, Bool.and_eq_true, decide_eq_true_eq,
    if_false, beq_iff_eq, Bool.false_eq_true] at h
  exact ⟨h.1.1.1, h.1.1.2, h.1.2, h.2⟩

/-- C8 counterexample: `queryRange` is not always strictly ascending.
Two upserts with distinct sources but the same ticker and timestamp
both survive (the identity triple includes the source), and a query
without a source filter returns both rows with equal timestamps. -/
theorem C8_strict_order_counterexample :
    ¬ List.Pairwise (fun r1 r2 : MarketData => r1.timestamp < r2.timestamp)
      (query_history
        (bulkState [] [⟨"a", "t", 5, 1, "u", [], []⟩, ⟨"b", "t", 5, 2, "u", [], []⟩])
        "t" 0 10 none) := by
  decide

/-- C8 amended: `query_history` returns exactly the stored rows whose
ticker matches with `start ≤ timestamp ≤ end` (inclusive bounds, as a
permutation of that filter), sorted by nondecreasing timestamp, and an
empty list — not an error — when nothing matches; the order is
strictly ascending whenever a (nonempty-string) source filter is given
and the store satisfies the identity-uniqueness invariant, though not
in general for source-less queries across feeds. -/
theorem C8_queryRange_contract (db : List MarketData) (t : String) (s e : Nat)
    (src : Option String) :
    List.Perm (query_history db t s e src) (db.filter (matchesQuery t s e src))
    ∧ List.Sorted rowLE (query_history db t s e src)
    ∧ (db.filter (matchesQuery t s e src) = [] → query_history db t s e src = [])
    ∧ (∀ s0, src = some s0 → s0 ≠ "" → distinctIdent db →
        List.Pairwise (fun r1 r2 : MarketData => r1.timestamp < r2.timestamp)
          (query_history db t s e src)) := by
  refine ⟨List.perm_insertionSort rowLE _, List.sorted_insertionSort rowLE _, ?_, ?_⟩
  · intro h
    rw [query_history, h]
    rfl
  · intro s0 hsrc hs0 hdist
    subst hsrc
    have hne : (db.filter (matchesQuery t s e (some s0))).Pairwise
        (fun r1 r2 => r1.timestamp ≠ r2.timestamp) := by
      refine (hdist.sublist (List.filter_sublist db)).imp_of_mem ?_
      intro r1 r2 h1 h2 hnid hts
      obtain ⟨htk1, -, -, hsrc1⟩ := matchesQuery_some_facts hs0 (List.mem_filter.1 h1).2
      obtain ⟨htk2, -, -, hsrc2⟩ := matchesQuery_some_facts hs0 (List.mem_filter.1 h2).2
      exact hnid ⟨by rw [hsrc1, hsrc2], by rw [htk1, htk2], hts⟩
    have hneq : (query_history db t s e (some s0)).Pairwise
        (fun r1 r2 => r1.timestamp ≠ r2.timestamp) :=
      ((List.perm_insertionSort rowLE _).pairwise_iff
        (fun h' he => h' he.symm)).2 hne
    have hsorted : (query_history db t s e (some s0)).Pairwise rowLE :=
      List.sorted_insertionSort rowLE _
    exact (hsorted.and hneq).imp (fun hab => Nat.lt_of_le_of_ne hab.1 hab.2)

/-- C8 witness: with a source filter and an upsert-built store, the
query result is strictly ascending. -/
theorem C8_witness :
    List.Pairwise (fun r1 r2 : MarketData => r1.timestamp < r2.timestamp)
      (query_history
        [⟨"curveseries", "t", 7, 1, "u", [], []⟩, ⟨"curveseries", "t", 2, 1, "u", [], []⟩]
        "t" 0 10 (some "curveseries")) :=
  (C8_queryRange_contract
    [⟨"curveseries", "t", 7, 1, "u", [], []⟩, ⟨"curveseries", "t", 2, 1, "u", [], []⟩]
    "t" 0 10 (some "curveseries")).2.2.2 "curveseries" rfl (by decide) (by decide)

/-- The value rule as the spec states it, written from the spec's
words for comparison with the code: the first cell recognized as
numeric becomes the value, default `0.0`. -/
def firstNumericCell : List Cell → Rat
  | [] => 0
  | Cell.num v :: _ => v
  | Cell.str _ :: rest => firstNumericCell rest

/-- The value rule the code implements: every numeric cell overwrites
the running value, so the last numeric cell (left-to-right) wins,
default `0.0`. -/
def lastNumericCell (row : List Cell) : Rat :=
  row.foldl (fun acc c => match c with | Cell.num v => v | Cell.str _ => acc) 0

theorem scanCells_snd (row : List Cell) (ts : Option Date) (val : Rat) :
    (scanCells row ts val).2
      = row.foldl (fun acc c => match c with | Cell.num v => v | Cell.str _ => acc) val := by
  induction row generalizing ts val with
  | nil => rfl
  | cons c rest ih =>
      cases c with
      | num v =>
          simp only [scanCells, List.foldl_cons]
          exact ih ts v
      | str s =>
          simp only [scanCells, List.foldl_cons]
          by_cases hc : (ts.isNone && s.contains '-') = true
          · rw [if_pos hc]
            exact ih _ val
          · rw [if_neg hc]
            exact ih ts val

/-- C5 counterexample: the first-numeric-cell rule fails on the code.
On a row with two numeric cells the emitted packet carries the second
(last) one: the scan loop overwrites `val` on every numeric cell and
never stops at the first. -/
theorem C5_first_numeric_counterexample :
    (rowToPacket "t" [Cell.num 1, Cell.num 2, Cell.str "26-Dec-2025".toList]).map
        (fun p => p.value) = some 2
    ∧ firstNumericCell [Cell.num 1, Cell.num 2, Cell.str "26-Dec-2025".toList] = 1
    ∧ (2 : Rat) ≠ 1 := by
  decide

/-- C5 amended: for every raw row that yields a packet, the packet's
value equals the last cell, in left-to-right scan order, recognized as
numeric (`0.0` when the row contains no numeric cell); the scan order
is fixed, so re-parsing identical input yields identical output, and a
row with a single numeric cell (such as the spec's
`["26-Dec-2025 00:00:00.000", 82.35]` example) still yields that
cell's value. -/
theorem C5_last_numeric_value (equation : String) (row : List Cell)
    (p : StandardDataPacket) (h : rowToPacket equation row = some p) :
    p.value = lastNumericCell row := by
  have hsnd := scanCells_snd row none 0
  simp only [rowToPacket] at h
  cases hts : (scanCells row none 0).1 with
  | none =>
      rw [hts] at h
      cases h
  | some d =>
      rw [hts] at h
      cases h
      exact hsnd

/-- C5 witness: the spec's own example row yields one packet whose
value 82.35 (= 1647/20) is the last — here the only — numeric cell. -/
theorem C5_witness :
    rowToPacket "t" [Cell.str "26-Dec-2025 00:00:00.000".toList, Cell.num (mkRat 1647 20)]
      = some { source := "curveseries", ticker := "t",
               timestamp := dateToMicros ⟨2025, 12, 26⟩, value := mkRat 1647 20,
               unit := "unit",
               raw_data := [Cell.str "26-Dec-2025 00:00:00.000".toList,
                 Cell.num (mkRat 1647 20)],
               metadata := [] }
    ∧ ({ source := "curveseries", ticker := "t",
         timestamp := dateToMicros ⟨2025, 12, 26⟩, value := mkRat 1647 20,
         unit := "unit",
         raw_data := [Cell.str "26-Dec-2025 00:00:00.000".toList,
           Cell.num (mkRat 1647 20)],
         metadata := [] } : StandardDataPacket).value
        = lastNumericCell [Cell.str "26-Dec-2025 00:00:00.000".toList,
            Cell.num (mkRat 1647 20)] :=
  ⟨by decide,
    C5_last_numeric_value "t"
      [Cell.str "26-Dec-2025 00:00:00.000".toList, Cell.num (mkRat 1647 20)]
      _ (by decide)⟩

/-- C6: row-drop rule. A raw row in which the scan finds no parseable
timestamp produces zero packets — no packet with a defaulted or
synthesized timestamp is ever emitted for it — and the drop is
confined to that row: the surrounding rows normalize exactly as they
would without it, so the failure never escalates to the request. -/
theorem C6_row_drop (equation : String) (row : List Cell)
    (pre post : List (List Cell)) (h : (scanCells row none 0).1 = none) :
    rowToPacket equation row = none
    ∧ normalizeRows equation (pre ++ row :: post)
        = normalizeRows equation pre ++ normalizeRows equation post := by
  have hnone : rowToPacket equation row = none := by
    simp only [rowToPacket, h]
  refine ⟨hnone, ?_⟩
  rw [normalizeRows, normalizeRows, normalizeRows, List.filterMap_append]
  congr 1
  rw [List.filterMap_cons, hnone]

/-- C6 witness: the spec's `["not-a-date", 5.0]` row yields zero
packets and leaves a neighbouring well-formed row's output intact. -/
theorem C6_witness :
    ((scanCells [Cell.str "not-a-date".toList, Cell.num 5] none 0).1 = none)
    ∧ rowToPacket "t" [Cell.str "not-a-date".toList, Cell.num 5] = none
    ∧ normalizeRows "t"
        ([[Cell.str "26-Dec-2025".toList, Cell.num 1]]
          ++ [Cell.str "not-a-date".toList, Cell.num 5]
          :: [[Cell.str "27-Dec-2025".toList, Cell.num 2]])
      = normalizeRows "t" [[Cell.str "26-Dec-2025".toList, Cell.num 1]]
        ++ normalizeRows "t" [[Cell.str "27-Dec-2025".toList, Cell.num 2]] :=
  ⟨by decide,
    C6_row_drop "t" [Cell.str "not-a-date".toList, Cell.num 5]
      [[Cell.str "26-Dec-2025".toList, Cell.num 1]]
      [[Cell.str "27-Dec-2025".toList, Cell.num 2]] (by decide)⟩

/-- C7: locale-independent date parsing. The parser is a pure function
of its fixed month table — no host-locale state exists in it — and it
maps `"26-Dec-2025"` (via the case-sensitive Jan–Dec table) and
`"26-12-2025"` (via the numeric-month fallback) to the identical date
2025-12-26; a trailing time-of-day suffix is stripped before parsing,
and a month spelled outside the fixed table (lowercase `"dec"`) is
rejected rather than resolved through any locale. -/
theorem C7_locale_independent_date_parse :
    parse_custom_date "26-Dec-2025".toList = some ⟨2025, 12, 26⟩
    ∧ parse_custom_date "26-12-2025".toList = some ⟨2025, 12, 26⟩
    ∧ parse_custom_date "26-Dec-2025".toList = parse_custom_date "26-12-2025".toList
    ∧ parse_custom_date "26-Dec-2025 00:00:00.000".toList = some ⟨2025, 12, 26⟩
    ∧ parse_custom_date "26-dec-2025".toList = none
    ∧ month_map "Dec".toList = some 12 := by
  decide

/-- The rational used for the spec's `82.35` example is exactly that
decimal. -/
theorem value_8235_repr : (82.35 : Rat) = mkRat 1647 20 := by norm_num
